import Mathlib

/-
  Verification development for the xml_to_csv converter
  (source: src/xml_to_csv.py).

  The Python program is shallowly embedded here.  Python strings are
  modelled as Lean `String` / `List Char`; Python dictionaries as ordered
  association lists; Python `None`-or-`str` values as `PyVal`; exceptions
  as `Except PyErr`.  Library calls of the Python standard library that
  the program makes (`xml.etree.ElementTree` parsing and serialisation,
  `datetime.fromisoformat`, `datetime.strftime`, the `csv` writer) are
  modelled by executable Lean functions that follow the documented
  behaviour of those libraries on the constructs this program exercises
  (elements, attributes, text, namespaces, entities; the pre-3.11
  `fromisoformat` grammar; QUOTE_MINIMAL csv quoting).
-/

namespace XmlToCsv

/-- The single-quote character, written via its code point. -/
def sq : Char := Char.ofNat 39

/-- The single-quote character as a string. -/
def sqs : String := String.singleton sq

/-- Characters treated as whitespace by Python `str.strip` and
`str.lstrip` (ASCII subset, which is all the program meets). -/
def isPyWs (c : Char) : Bool :=
  c = ' ' || c = '\t' || c = '\n' || c = '\x0d' || c = Char.ofNat 11 || c = Char.ofNat 12

/-- Python `line.lstrip()` on a list of characters. -/
def pyLstripL (cs : List Char) : List Char := cs.dropWhile isPyWs

/-- Python `s.strip()` on a list of characters. -/
def pyStripL (cs : List Char) : List Char :=
  ((cs.dropWhile isPyWs).reverse.dropWhile isPyWs).reverse

/-- Python `s.startswith(p)` on lists of characters. -/
def startsWithL (p cs : List Char) : Bool := p.isPrefixOf cs

/-- Python `s.split(chr(10))`: split a character list at every newline.
The result always has one more part than there are newlines. -/
def splitNlL : List Char → List (List Char)
  | [] => [[]]
  | c :: rest =>
    if c = '\n' then [] :: splitNlL rest
    else
      match splitNlL rest with
      | l :: ls => (c :: l) :: ls
      | [] => [[c]]

/-- Python `chr(10).join(lines)`. -/
def joinNlL : List (List Char) → List Char
  | [] => []
  | [l] => l
  | l :: ls => l ++ '\n' :: joinNlL ls

/-- Python `time_created.replace(z, plus0000)` where the pattern is the
single character Z: every occurrence of Z anywhere in the string is
replaced by `+00:00` (src line 28). -/
def replaceZL (cs : List Char) : List Char :=
  cs.flatMap (fun c => if c = 'Z' then "+00:00".data else [c])

/-- A Python value that is either a `str` or `None`, as stored in the
`csv_data` dictionary of `parse_event_xml`. -/
inductive PyVal where
  | none : PyVal
  | str : String → PyVal
deriving DecidableEq, Repr

/-- The string the csv writer emits for a field value (`None` becomes
the empty string). -/
def pyValStr : PyVal → String
  | PyVal.none => ""
  | PyVal.str s => s

/-- The Python exceptions the program can raise and catch
(src lines 115-133): `ET.ParseError`, `AttributeError` (from calling a
method on `None`), `ValueError` (from `datetime.fromisoformat`). -/
inductive PyErr where
  | parseError : String → PyErr
  | attributeError : String → PyErr
  | valueError : String → PyErr
deriving DecidableEq, Repr

/-- The message text `str(e)` of a modelled exception. -/
def PyErr.msg : PyErr → String
  | PyErr.parseError m => m
  | PyErr.attributeError m => m
  | PyErr.valueError m => m

/-- A naive `datetime` value as produced by `datetime.fromisoformat`:
date and time components plus an optional fixed utc offset in minutes. -/
structure PyDatetime where
  year : Nat
  month : Nat
  day : Nat
  hour : Nat
  minute : Nat
  second : Nat
  microsecond : Nat
  tzMinutes : Option Int
deriving DecidableEq, Repr

/-- Gregorian leap-year test, as used by `datetime`. -/
def isLeap (y : Nat) : Bool := (y % 4 = 0 && y % 100 ≠ 0) || y % 400 = 0

/-- Number of days of a month, as validated by the `datetime`
constructor. -/
def daysInMonth (y m : Nat) : Nat :=
  if m = 2 then (if isLeap y then 29 else 28)
  else if m = 4 || m = 6 || m = 9 || m = 11 then 30
  else 31

/-- Value of a decimal digit character, if it is one. -/
def digitVal (c : Char) : Option Nat :=
  if '0' ≤ c && c ≤ '9' then some (c.toNat - 48) else Option.none

/-- Parse an exact run of decimal digit characters as a number. -/
def digitsVal : List Char → Option Nat
  | [] => Option.none
  | cs => cs.foldl (fun acc c => match acc, digitVal c with
      | some a, some d => some (a * 10 + d)
      | _, _ => Option.none) (some 0)

/-- Parse the fixed `HH[:MM[:SS[.fff[fff]]]]` time grammar of CPython
`_parse_isoformat_time` (pre-3.11): returns hour, minute, second,
microsecond.  Component positions and separators are rigid; the
fractional part has exactly 3 or 6 digits. -/
def parseHMSF (cs : List Char) : Option (Nat × Nat × Nat × Nat) :=
  match cs with
  | [h1, h2] => do
    let h ← digitsVal [h1, h2]
    pure (h, 0, 0, 0)
  | [h1, h2, c1, m1, m2] => do
    if c1 ≠ ':' then Option.none else
    let h ← digitsVal [h1, h2]
    let m ← digitsVal [m1, m2]
    pure (h, m, 0, 0)
  | [h1, h2, c1, m1, m2, c2, s1, s2] => do
    if c1 ≠ ':' || c2 ≠ ':' then Option.none else
    let h ← digitsVal [h1, h2]
    let m ← digitsVal [m1, m2]
    let s ← digitsVal [s1, s2]
    pure (h, m, s, 0)
  | h1 :: h2 :: c1 :: m1 :: m2 :: c2 :: s1 :: s2 :: dot :: frac => do
    if c1 ≠ ':' || c2 ≠ ':' || dot ≠ '.' then Option.none else
    if frac.length ≠ 3 && frac.length ≠ 6 then Option.none else
    let h ← digitsVal [h1, h2]
    let m ← digitsVal [m1, m2]
    let s ← digitsVal [s1, s2]
    let f ← digitsVal frac
    let f := if frac.length = 3 then f * 1000 else f
    pure (h, m, s, f)
  | _ => Option.none

/-- Index of the first occurrence of a character, if any
(Python `s.find(c)` when the result is tested for success). -/
def idxOfL (c : Char) : List Char → Option Nat
  | [] => Option.none
  | x :: xs =>
    if x = c then some 0
    else match idxOfL c xs with
      | some i => some (i + 1)
      | Option.none => Option.none

/-- CPython `_parse_isoformat_time`: a time string, optionally followed
by a utc offset introduced by `-` or `+` (the `-` position is searched
first, matching `tstr.find` in the CPython source).  Offset components
reuse the time grammar and must form a valid offset. -/
def parseIsoTime (cs : List Char) : Option (Nat × Nat × Nat × Nat × Option Int) := do
  let tzPos := match idxOfL '-' cs with
    | some i => some (i, (-1 : Int))
    | Option.none => match idxOfL '+' cs with
      | some i => some (i, (1 : Int))
      | Option.none => Option.none
  match tzPos with
  | Option.none => do
    let (h, m, s, f) ← parseHMSF cs
    pure (h, m, s, f, Option.none)
  | some (i, sign) => do
    let timestr := cs.take i
    let tzstr := cs.drop (i + 1)
    if tzstr.length ≠ 5 && tzstr.length ≠ 8 && tzstr.length ≠ 15 then Option.none else
    let (h, m, s, f) ← parseHMSF timestr
    let (th, tm, ts, _) ← parseHMSF tzstr
    if th > 23 || tm > 59 || ts > 59 then Option.none else
    pure (h, m, s, f, some (sign * (th * 60 + tm)))

/-- Model of pre-3.11 `datetime.fromisoformat`: a 10-character
`YYYY-MM-DD` date, optionally followed by one arbitrary separator
character and a time string, with `datetime` range validation. -/
def fromisoformat (cs : List Char) : Option PyDatetime := do
  match cs with
  | y1 :: y2 :: y3 :: y4 :: d1 :: m1 :: m2 :: d2 :: dd1 :: dd2 :: rest => do
    if d1 ≠ '-' || d2 ≠ '-' then Option.none else
    let y ← digitsVal [y1, y2, y3, y4]
    let mo ← digitsVal [m1, m2]
    let d ← digitsVal [dd1, dd2]
    let (h, mi, s, f, tz) ←
      match rest with
      | [] => some (0, 0, 0, 0, Option.none)
      | [_] => Option.none
      | _ :: tstr => parseIsoTime tstr
    if y < 1 then Option.none else
    if mo < 1 || mo > 12 then Option.none else
    if d < 1 || d > daysInMonth y mo then Option.none else
    if h > 23 || mi > 59 || s > 59 then Option.none else
    pure ⟨y, mo, d, h, mi, s, f, tz⟩
  | _ => Option.none

/-- Zero-pad a number to two digits (the `%m %d %H %M %S` strftime
directives for in-range values). -/
def pad2 (n : Nat) : String :=
  if n < 10 then "0" ++ toString n else toString n

/-- Zero-pad a number to four digits (the `%Y` strftime directive; all
values this program produces have four-digit years). -/
def pad4 (n : Nat) : String :=
  if n < 10 then "000" ++ toString n
  else if n < 100 then "00" ++ toString n
  else if n < 1000 then "0" ++ toString n
  else toString n

/-- Model of `dt.strftime(fmtYmdHMS)` with the format string
of src line 28: `%Y-%m-%d %H:%M:%S`. -/
def strftimeYmdHMS (dt : PyDatetime) : String :=
  pad4 dt.year ++ "-" ++ pad2 dt.month ++ "-" ++ pad2 dt.day ++ " " ++
  pad2 dt.hour ++ ":" ++ pad2 dt.minute ++ ":" ++ pad2 dt.second

mutual

/-- A raw XML element as built by the expat tokenizer, before namespace
expansion: tag name as written, attributes in document order (with the
`xmlns` ones still present), text before the first child, children, and
tail text after the closing tag. -/
inductive RawElem where
  | node (tag : String) (attrib : List (String × String)) (text : Option String)
      (children : RawForest) (tail : Option String)

/-- A sibling chain of raw elements. -/
inductive RawForest where
  | nil
  | cons (e : RawElem) (es : RawForest)

end

/-- Replace the tail of a raw element. -/
def RawElem.withTail : RawElem → Option String → RawElem
  | RawElem.node t a tx ch _, tl => RawElem.node t a tx ch tl

mutual

/-- An `xml.etree.ElementTree.Element` after namespace expansion: the tag
is of the form `{uri}local` when namespaced, the `xmlns` attributes have
been removed. -/
inductive Elem where
  | node (tag : String) (attrib : List (String × String)) (text : Option String)
      (children : Forest) (tail : Option String)

/-- A sibling chain of elements. -/
inductive Forest where
  | nil
  | cons (e : Elem) (es : Forest)

end

/-- The tag of an element. -/
def Elem.tag : Elem → String
  | Elem.node t _ _ _ _ => t

/-- The attributes of an element, in document order. -/
def Elem.attrib : Elem → List (String × String)
  | Elem.node _ a _ _ _ => a

/-- The text before the first child (`element.text`), `None` when the
parser produced no character data there. -/
def Elem.text : Elem → Option String
  | Elem.node _ _ tx _ _ => tx

/-- The direct children of an element, as a sibling chain. -/
def Elem.children : Elem → Forest
  | Elem.node _ _ _ ch _ => ch

/-- The text after the closing tag (`element.tail`). -/
def Elem.tail : Elem → Option String
  | Elem.node _ _ _ _ tl => tl

/-- View a sibling chain as a list. -/
def Forest.toList : Forest → List Elem
  | Forest.nil => []
  | Forest.cons e es => e :: Forest.toList es

/-- Build a sibling chain from a list. -/
def forestOf : List Elem → Forest
  | [] => Forest.nil
  | e :: es => Forest.cons e (forestOf es)

/-- The direct children of an element, as a list. -/
def Elem.childList (e : Elem) : List Elem := (Elem.children e).toList

/-- Whitespace as recognised between XML tokens. -/
def isXmlWs (c : Char) : Bool := c = ' ' || c = '\t' || c = '\n' || c = '\x0d'

/-- Characters allowed inside an XML name (simplified ASCII set). -/
def isNameChar (c : Char) : Bool :=
  c.isAlphanum || c = '_' || c = '-' || c = '.' || c = ':'

/-- Characters allowed to start an XML name. -/
def isNameStart (c : Char) : Bool := c.isAlpha || c = '_' || c = ':'

/-- Drop leading XML whitespace. -/
def skipWsL (cs : List Char) : List Char := cs.dropWhile isXmlWs

/-- Read an XML name from the head of the input. -/
def takeName (cs : List Char) : Option (String × List Char) :=
  match cs with
  | c :: _ =>
    if isNameStart c then
      let nm := cs.takeWhile isNameChar
      some (String.mk nm, cs.drop nm.length)
    else Option.none
  | [] => Option.none

/-- Decode one entity reference (the input starts just after the
ampersand): the five predefined entities and decimal character
references. -/
def parseEntity : List Char → Option (Char × List Char)
  | 'a' :: 'm' :: 'p' :: ';' :: r => some ('&', r)
  | 'l' :: 't' :: ';' :: r => some ('<', r)
  | 'g' :: 't' :: ';' :: r => some ('>', r)
  | 'q' :: 'u' :: 'o' :: 't' :: ';' :: r => some ('"', r)
  | 'a' :: 'p' :: 'o' :: 's' :: ';' :: r => some (Char.ofNat 39, r)
  | '#' :: r =>
    let ds := r.takeWhile (fun c => '0' ≤ c && c ≤ '9')
    (match digitsVal ds, r.drop ds.length with
     | some n, ';' :: r2 =>
       if 0 < n && n < 1114112 && !(55296 ≤ n && n < 57344) then some (Char.ofNat n, r2)
       else Option.none
     | _, _ => Option.none)
  | _ => Option.none

/-- Read character data up to the next `<`; entity references are
decoded; a stray ampersand or end of input is a parse error. -/
def parseTextRun (fuel : Nat) (acc : List Char) (cs : List Char) :
    Option (List Char × List Char) :=
  match fuel with
  | 0 => Option.none
  | fuel + 1 =>
    match cs with
    | [] => Option.none
    | '<' :: _ => some (acc.reverse, cs)
    | '&' :: r =>
      (match parseEntity r with
       | some (c, r2) => parseTextRun fuel (c :: acc) r2
       | Option.none => Option.none)
    | c :: r => parseTextRun fuel (c :: acc) r

/-- Read a quoted attribute value up to the closing quote character. -/
def parseAttrValue (fuel : Nat) (q : Char) (acc : List Char) (cs : List Char) :
    Option (String × List Char) :=
  match fuel with
  | 0 => Option.none
  | fuel + 1 =>
    match cs with
    | [] => Option.none
    | c :: r =>
      if c = q then some (String.mk acc.reverse, r)
      else if c = '<' then Option.none
      else if c = '&' then
        match parseEntity r with
        | some (e, r2) => parseAttrValue fuel q (e :: acc) r2
        | Option.none => Option.none
      else parseAttrValue fuel q (c :: acc) r

/-- Read the attribute list of a start tag, stopping before `/` or `>`.
A duplicate attribute name is a parse error, as in expat. -/
def parseAttrs (fuel : Nat) (acc : List (String × String)) (cs : List Char) :
    Option (List (String × String) × List Char) :=
  match fuel with
  | 0 => Option.none
  | fuel + 1 =>
    let cs := skipWsL cs
    match cs with
    | [] => Option.none
    | c :: _ =>
      if c = '/' || c = '>' then some (acc.reverse, cs)
      else
        match takeName cs with
        | Option.none => Option.none
        | some (nm, cs) =>
          match skipWsL cs with
          | '=' :: cs =>
            (match skipWsL cs with
             | q :: cs =>
               if q = '"' || q = Char.ofNat 39 then
                 match parseAttrValue fuel q [] cs with
                 | some (v, cs) =>
                   if acc.any (fun kv => kv.1 = nm) then Option.none
                   else parseAttrs fuel ((nm, v) :: acc) cs
                 | Option.none => Option.none
               else Option.none
             | [] => Option.none)
          | _ => Option.none

/-- Turn an accumulated character-data run into `element.text` or
`element.tail`: `None` when no character data was produced. -/
def mkOptText (t : List Char) : Option String :=
  if t = [] then Option.none else some (String.mk t)

mutual

/-- Parse one element; the input starts at the tag name, just after the
opening `<`. -/
def parseElement (fuel : Nat) (cs : List Char) : Option (RawElem × List Char) :=
  match fuel with
  | 0 => Option.none
  | fuel + 1 => do
    let (nm, cs) ← takeName cs
    let (attrs, cs) ← parseAttrs fuel [] cs
    match cs with
    | '/' :: '>' :: cs => pure (RawElem.node nm attrs Option.none RawForest.nil Option.none, cs)
    | '>' :: cs => do
      let (text, children, cs) ← parseContent fuel cs
      let (endNm, cs) ← takeName cs
      if endNm ≠ nm then Option.none
      else
        match skipWsL cs with
        | '>' :: cs => pure (RawElem.node nm attrs text children Option.none, cs)
        | _ => Option.none
    | _ => Option.none

/-- Parse element content: leading text, then children each carrying the
text after it as tail, up to the enclosing end tag; the input after the
`</` is returned. -/
def parseContent (fuel : Nat) (cs : List Char) :
    Option (Option String × RawForest × List Char) :=
  match fuel with
  | 0 => Option.none
  | fuel + 1 => do
    let (t, cs) ← parseTextRun fuel [] cs
    match cs with
    | '<' :: '/' :: cs => pure (mkOptText t, RawForest.nil, cs)
    | '<' :: cs => do
      let (child, cs) ← parseElement fuel cs
      let (tailT, sibs, cs) ← parseContent fuel cs
      pure (mkOptText t, RawForest.cons (child.withTail tailT) sibs, cs)
    | _ => Option.none

end

/-- Skip past the first occurrence of a terminator pattern. -/
def dropPast (fuel : Nat) (pat : List Char) (cs : List Char) : Option (List Char) :=
  match fuel with
  | 0 => Option.none
  | fuel + 1 =>
    if startsWithL pat cs then some (cs.drop pat.length)
    else
      match cs with
      | [] => Option.none
      | _ :: r => dropPast fuel pat r

/-- Skip whitespace, processing instructions (`<?...?>`) and comments
(`<!--...-->`) outside the document element. -/
def skipMisc (fuel : Nat) (cs : List Char) : Option (List Char) :=
  match fuel with
  | 0 => Option.none
  | fuel + 1 =>
    let cs := skipWsL cs
    match cs with
    | '<' :: '?' :: r =>
      (match dropPast fuel "?>".data r with
       | some r2 => skipMisc fuel r2
       | Option.none => Option.none)
    | '<' :: '!' :: '-' :: '-' :: r =>
      (match dropPast fuel "-->".data r with
       | some r2 => skipMisc fuel r2
       | Option.none => Option.none)
    | _ => some cs

/-- Tokenize a whole document: optional prolog, one root element,
optional trailing whitespace; anything else is a parse error with an
expat-style message. -/
def fromstringRaw (cs : List Char) : Except String RawElem :=
  let fuel := 2 * cs.length + 16
  match skipMisc fuel cs with
  | Option.none => Except.error "syntax error: line 1, column 0"
  | some cs2 =>
    match cs2 with
    | '<' :: cs3 =>
      (match parseElement fuel cs3 with
       | Option.none => Except.error "not well-formed (invalid token): line 1, column 0"
       | some (e, rest) =>
         match skipMisc fuel rest with
         | some [] => Except.ok e
         | some _ => Except.error "junk after document element: line 1, column 0"
         | Option.none => Except.error "not well-formed (invalid token): line 1, column 0")
    | [] => Except.error "no element found: line 1, column 0"
    | _ => Except.error "syntax error: line 1, column 0"

/-- Left brace as a string, used to build `{uri}local` qualified names. -/
def lbr : String := "\x7b"

/-- Right brace as a string. -/
def rbr : String := "\x7d"

/-- Build a `{uri}local` qualified name. -/
def qname (uri nm : String) : String := lbr ++ uri ++ rbr ++ nm

/-- Extend a namespace environment (prefix, uri; empty prefix is the
default namespace) with the `xmlns` attributes of a start tag, in
document order so that the latest declaration is found first. -/
def updateEnv (env : List (String × String)) (attrib : List (String × String)) :
    List (String × String) :=
  attrib.foldl
    (fun e kv =>
      if kv.1 = "xmlns" then ("", kv.2) :: e
      else if startsWithL "xmlns:".data kv.1.data then (String.mk (kv.1.data.drop 6), kv.2) :: e
      else e)
    env

/-- Expand a name against the namespace environment: a prefixed name
becomes `{uri}local` (an unbound prefix is an error, as in expat); an
unprefixed name picks up the default namespace only when `useDefault`
is set (element tags yes, attribute names no). -/
def expandName (env : List (String × String)) (useDefault : Bool) (n : String) :
    Except String String :=
  match idxOfL ':' n.data with
  | some i =>
    let p := String.mk (n.data.take i)
    let nm := String.mk (n.data.drop (i + 1))
    (match env.lookup p with
     | some uri => Except.ok (qname uri nm)
     | Option.none => Except.error "unbound prefix: line 1, column 0")
  | Option.none =>
    if useDefault then
      match env.lookup "" with
      | some uri => Except.ok (qname uri n)
      | Option.none => Except.ok n
    else Except.ok n

/-- Expand the attribute names of an element and drop the `xmlns`
declarations, preserving document order. -/
def resolveAttrs (env : List (String × String)) :
    List (String × String) → Except String (List (String × String))
  | [] => Except.ok []
  | (k, v) :: rest => do
    let rest2 ← resolveAttrs env rest
    if k = "xmlns" || startsWithL "xmlns:".data k.data then pure rest2
    else do
      let k2 ← expandName env false k
      pure ((k2, v) :: rest2)

mutual

/-- Namespace expansion of a raw element tree, as performed by the expat
namespace handling that `ElementTree` enables. -/
def resolveNS (env : List (String × String)) : RawElem → Except String Elem
  | RawElem.node tag attrib text children tail => do
    let env2 := updateEnv env attrib
    let tag2 ← expandName env2 true tag
    let attrib2 ← resolveAttrs env2 attrib
    let children2 ← resolveList env2 children
    pure (Elem.node tag2 attrib2 text children2 tail)

/-- Namespace expansion of a chain of sibling elements. -/
def resolveList (env : List (String × String)) : RawForest → Except String Forest
  | RawForest.nil => Except.ok Forest.nil
  | RawForest.cons r rs => do
    let e ← resolveNS env r
    let es ← resolveList env rs
    pure (Forest.cons e es)

end

/-- Model of `ET.fromstring`: tokenize, then expand namespaces; any
failure is an `ET.ParseError` carrying the message. -/
def fromstring (s : String) : Except String Elem := do
  let raw ← fromstringRaw s.data
  resolveNS [] raw

/-- First direct child with the given (expanded) tag, as
`element.find` with an expanded path of one step. -/
def findChild (e : Elem) (t : String) : Option Elem :=
  (Elem.childList e).find? (fun c => Elem.tag c = t)

/-- All direct children with the given tag, as `element.findall` with a
one-step path. -/
def findChildren (e : Elem) (t : String) : List Elem :=
  (Elem.childList e).filter (fun c => Elem.tag c = t)

/-- Attribute lookup, as `element.get`. -/
def getAttr (e : Elem) (k : String) : Option String :=
  (Elem.attrib e).lookup k

mutual

/-- All descendants of an element in document order, excluding the
element itself (the node set of the `.//` path step). -/
def descendants : Elem → List Elem
  | Elem.node _ _ _ ch _ => descendantsList ch

/-- Descendants of a sibling chain, each sibling included. -/
def descendantsList : Forest → List Elem
  | Forest.nil => []
  | Forest.cons c cs => c :: (descendants c ++ descendantsList cs)

end

/-- Split a `{uri}local` qualified name, if it is one. -/
def uriOfQName (q : String) : Option (String × String) :=
  match q.data with
  | c :: rest =>
    if c = Char.ofNat 123 then
      match idxOfL (Char.ofNat 125) rest with
      | some i => some (String.mk (rest.take i), String.mk (rest.drop (i + 1)))
      | Option.none => Option.none
    else Option.none
  | [] => Option.none

/-- Add the namespace uri of a qualified name to the accumulator,
keeping first-encounter order (the prefix assignment order of
`ElementTree._namespaces`). -/
def addURI (acc : List String) (q : String) : List String :=
  match uriOfQName q with
  | some (u, _) => if acc.contains u then acc else acc ++ [u]
  | Option.none => acc

mutual

/-- Collect, in document order, the namespace uris used by tags and
attribute names of a tree. -/
def collectURIs : Elem → List String → List String
  | Elem.node tag attrib _ ch _, acc =>
    let acc := addURI acc tag
    let acc := attrib.foldl (fun a kv => addURI a kv.1) acc
    collectURIsList ch acc

/-- Collect namespace uris over a sibling chain. -/
def collectURIsList : Forest → List String → List String
  | Forest.nil, acc => acc
  | Forest.cons c cs, acc => collectURIsList cs (collectURIs c acc)

end

/-- The generated serialisation prefix (`ns0`, `ns1`, ...) of a uri. -/
def genPrefOf (uris : List String) (u : String) : String :=
  "ns" ++ toString (uris.findIdx (fun x => x = u))

/-- Render a qualified name with its generated serialisation prefix. -/
def qnameStr (uris : List String) (q : String) : String :=
  match uriOfQName q with
  | some (u, nm) => genPrefOf uris u ++ ":" ++ nm
  | Option.none => q

/-- `ElementTree._escape_cdata`: escaping of text content. -/
def escCdata (s : String) : String :=
  String.mk (s.data.flatMap (fun c =>
    if c = '&' then "&amp;".data
    else if c = '<' then "&lt;".data
    else if c = '>' then "&gt;".data
    else [c]))

/-- `ElementTree._escape_attrib`: escaping of attribute values. -/
def escAttrib (s : String) : String :=
  String.mk (s.data.flatMap (fun c =>
    if c = '&' then "&amp;".data
    else if c = '<' then "&lt;".data
    else if c = '>' then "&gt;".data
    else if c = '"' then "&quot;".data
    else if c = '\x0d' then "&#13;".data
    else if c = '\n' then "&#10;".data
    else if c = '\t' then "&#09;".data
    else [c]))

/-- Insert into a list sorted by the first component. -/
def insSorted (x : String × String) : List (String × String) → List (String × String)
  | [] => [x]
  | y :: ys => if x.1 ≤ y.1 then x :: y :: ys else y :: insSorted x ys

/-- The namespace declarations written on the serialisation root, sorted
by prefix as `ElementTree` sorts them. -/
def nsDeclString (uris : List String) : String :=
  let pairs := uris.map (fun u => (genPrefOf uris u, u))
  let sorted := pairs.foldr insSorted []
  String.join (sorted.map (fun pu => " xmlns:" ++ pu.1 ++ "=\"" ++ escAttrib pu.2 ++ "\""))

mutual

/-- `ElementTree._serialize_xml` with `short_empty_elements=True`: start
tag (with namespace declarations on the root), text, children, end tag,
then the tail of the element itself. -/
def serializeElem (uris : List String) (isRoot : Bool) : Elem → String
  | Elem.node tag attrib text ch tl =>
    let tagS := qnameStr uris tag
    let decls := if isRoot then nsDeclString uris else ""
    let attrS := String.join (attrib.map
      (fun kv => " " ++ qnameStr uris kv.1 ++ "=\"" ++ escAttrib kv.2 ++ "\""))
    let core :=
      match text, ch with
      | Option.none, Forest.nil => "<" ++ tagS ++ decls ++ attrS ++ " />"
      | _, _ =>
        "<" ++ tagS ++ decls ++ attrS ++ ">" ++
        escCdata ((text).getD "") ++ serializeList uris ch ++ "</" ++ tagS ++ ">"
    core ++ escCdata ((tl).getD "")

/-- Serialize a sibling chain, each element followed by its tail. -/
def serializeList (uris : List String) : Forest → String
  | Forest.nil => ""
  | Forest.cons c cs => serializeElem uris false c ++ serializeList uris cs

end

/-- Model of `ET.tostring(e, encoding=unicode)`: assign generated
prefixes to the namespaces of the subtree and serialize. -/
def tostring (e : Elem) : String :=
  serializeElem (collectURIs e []) true e

/-- The Windows Event Schema namespace of src line 20. -/
def evtURI : String := "http://schemas.microsoft.com/win/2004/08/events/event"

/-- The expanded tag a path step `evt:nm` with the namespace dictionary
of src line 20 resolves to. -/
def evtTag (nm : String) : String := qname evtURI nm

/-- The message of the `AttributeError` raised when a method is called
on `None`. -/
def noneAttrMsg (meth : String) : String :=
  sqs ++ "NoneType" ++ sqs ++ " object has no attribute " ++ sqs ++ meth ++ sqs

/-- Python dictionary assignment `d[k] = v` on an insertion-ordered
association list with unique keys: an existing key keeps its position
and gets the new value, a new key is appended. -/
def dictSet : List (Option String × String) → Option String → String →
    List (Option String × String)
  | [], k, v => [(k, v)]
  | (a, b) :: rest, k, v =>
    if a = k then (a, v) :: rest else (a, b) :: dictSet rest k v

/-- Python `d.get(k, dflt)`. -/
def dictGet : List (Option String × String) → Option String → String → String
  | [], _, dflt => dflt
  | (a, b) :: rest, k, dflt => if a = k then b else dictGet rest k dflt

/-- The value stored for a `Data` element (src line 36):
`data.text if data.text else` the empty string — both `None` and an
empty text give the empty string. -/
def dataValue (d : Elem) : String := (Elem.text d).getD ""

/-- The `csv_data` dictionary value for `hostname`: the `Computer`
element text, which is `None` when the element is empty. -/
def hostnameVal (computer : Option String) : PyVal :=
  match computer with
  | some t => PyVal.str t
  | Option.none => PyVal.none

/-- The `data_dict` loop of src lines 32-37: fold every direct `Data`
child of `EventData` into an insertion-ordered dictionary keyed by the
`Name` attribute. -/
def mkDataDict (event_data : Elem) : List (Option String × String) :=
  (findChildren event_data (evtTag "Data")).foldl
    (fun d dataEl => dictSet d (getAttr dataEl "Name") (dataValue dataEl)) []

/-- Shallow embedding of `parse_event_xml` (src lines 6-50) after the
`ET.fromstring` call: extraction from the parsed element.  Each `find`
result used as an object is `None`-checked in source order, raising the
`AttributeError` the Python attribute access would raise; a bad
timestamp raises the `ValueError` of `fromisoformat`.  The failure for a
`TimeCreated` element without a `SystemTime` attribute surfaces at the
`replace` call of src line 28, after the `Computer` access of line 25,
as in the source. -/
def parse_event_xml_core (root : Elem) : Except PyErr (List (String × PyVal)) := do
  let some system := findChild root (evtTag "System")
    | Except.error (PyErr.attributeError (noneAttrMsg "find"))
  let some timeCreatedEl := findChild system (evtTag "TimeCreated")
    | Except.error (PyErr.attributeError (noneAttrMsg "get"))
  let some computerEl := findChild system (evtTag "Computer")
    | Except.error (PyErr.attributeError (noneAttrMsg "text"))
  let some tc := getAttr timeCreatedEl "SystemTime"
    | Except.error (PyErr.attributeError (noneAttrMsg "replace"))
  let some dt := fromisoformat (replaceZL tc.data)
    | Except.error (PyErr.valueError
        ("Invalid isoformat string: " ++ sqs ++ String.mk (replaceZL tc.data) ++ sqs))
  let some event_data := findChild root (evtTag "EventData")
    | Except.error (PyErr.attributeError (noneAttrMsg "findall"))
  Except.ok [
    ("eventdate", PyVal.str (strftimeYmdHMS dt)),
    ("hostname", hostnameVal (Elem.text computerEl)),
    ("user", PyVal.str (dictGet (mkDataDict event_data) (some "SubjectUserName") "")),
    ("processid", PyVal.str (dictGet (mkDataDict event_data) (some "NewProcessId") "")),
    ("image", PyVal.str (dictGet (mkDataDict event_data) (some "NewProcessName") "")),
    ("processcommandline", PyVal.str (dictGet (mkDataDict event_data) (some "CommandLine") "")),
    ("hashes", PyVal.str "")]

/-- Shallow embedding of `parse_event_xml` on a string: `ET.fromstring`
(src line 17) then extraction. -/
def parse_event_xml (xml_string : String) : Except PyErr (List (String × PyVal)) :=
  match fromstring xml_string with
  | Except.error m => Except.error (PyErr.parseError m)
  | Except.ok root => parse_event_xml_core root

/-- Field lookup in a parsed record. -/
def recLookup (r : List (String × PyVal)) (k : String) : Option PyVal :=
  (r.find? (fun kv => kv.1 = k)).map (fun kv => kv.2)

/-- The per-line cleanup of src lines 76-78: strip leading whitespace,
then drop a leading dash-space pair. -/
def cleanLineL (l : List Char) : List Char :=
  let s := pyLstripL l
  if startsWithL "- ".data s then s.drop 2 else s

/-- The accumulator loop of src lines 73-79. -/
def cleanLoop (acc : List (List Char)) : List (List Char) → List (List Char)
  | [] => acc.reverse
  | l :: ls => cleanLoop (cleanLineL l :: acc) ls

/-- The whole cleanup of src lines 72-80: split on newlines, clean each
line, join with newlines. -/
def cleanL (cs : List Char) : List Char := joinNlL (cleanLoop [] (splitNlL cs))

/-- String-level cleanup. -/
def clean (s : String) : String := String.mk (cleanL s.data)

/-- The multi-event recovery of src lines 82-95: skipped when the
stripped content starts with `<Event`; otherwise parse, look for
namespaced then non-namespaced `Event` descendants and serialize the
first one; any failure keeps the content unchanged. -/
def recoverStep (s : String) : String :=
  if startsWithL "<Event".data (pyStripL s.data) then s
  else
    match fromstring s with
    | Except.error _ => s
    | Except.ok root =>
      let events := (descendants root).filter (fun e => Elem.tag e = evtTag "Event")
      let events :=
        if events.isEmpty then (descendants root).filter (fun e => Elem.tag e = "Event")
        else events
      match events with
      | [] => s
      | e :: _ => tostring e

/-- The csv fieldnames of src line 101. -/
def fieldnames : List String :=
  ["eventdate", "hostname", "user", "processid", "image", "processcommandline", "hashes"]

/-- QUOTE_MINIMAL: a field is quoted when it contains the delimiter, the
quote character, or a character of the line terminator. -/
def needsQuote (s : String) : Bool :=
  s.data.any (fun c => c = ',' || c = '"' || c = '\x0d' || c = '\n')

/-- One csv field, quoted if needed with inner quotes doubled. -/
def csvField (s : String) : String :=
  if needsQuote s then
    String.mk ('"' :: s.data.flatMap (fun c => if c = '"' then ['"', '"'] else [c]) ++ ['"'])
  else s

/-- One csv row with the default line terminator of the `csv` module. -/
def csvRow (cells : List String) : String :=
  String.intercalate "," (cells.map csvField) ++ "\x0d\n"

/-- Outcome of one invocation of `xml_to_csv`: the process exit status,
the content written to the output csv file (`None` when the file was
never opened), and the first error line printed, if any. -/
structure RunResult where
  exitCode : Nat
  written : Option String
  errMsg : Option String
deriving DecidableEq, Repr

/-- Shallow embedding of `xml_to_csv` (src lines 52-133).  The file
system read is an input: `None` means the input path does not exist
(`FileNotFoundError`); writing the output file is modelled as always
succeeding, as the source assumes.  Branches in source order: missing
file, empty content, cleanup, recovery, parse (ParseError caught
separately from other exceptions), csv write. -/
def xml_to_csv (xml_input_file : String) (fileContent : Option String) : RunResult :=
  match fileContent with
  | Option.none =>
    ⟨1, Option.none, some ("Error: File " ++ sqs ++ xml_input_file ++ sqs ++ " not found.")⟩
  | some content =>
    if pyStripL content.data = [] then ⟨1, Option.none, some "Error: XML file is empty"⟩
    else
      match parse_event_xml (recoverStep (clean content)) with
      | Except.error (PyErr.parseError m) =>
        ⟨1, Option.none, some ("Error: Failed to parse XML - " ++ m)⟩
      | Except.error e => ⟨1, Option.none, some ("Error: " ++ PyErr.msg e)⟩
      | Except.ok csv_data =>
        ⟨0, some (csvRow fieldnames ++ csvRow (csv_data.map (fun kv => pyValStr kv.2))),
         Option.none⟩

/-- Value of the last direct `Data` child carrying the given `Name`
attribute, used to state the last-occurrence-wins property. -/
def lastNamed : List Elem → String → Option String
  | [], _ => Option.none
  | d :: rest, nm =>
    match lastNamed rest nm with
    | some v => some v
    | Option.none => if getAttr d "Name" = some nm then some (dataValue d) else Option.none

/-- Decorate every line of a character list with a leading dash-space
pair, the export artifact the cleanup targets. -/
def decorateL (cs : List Char) : List Char :=
  joinNlL ((splitNlL cs).map (fun l => '-' :: ' ' :: l))

/-- Decorate every line of a string with a leading dash-space pair. -/
def decorate (s : String) : String := String.mk (decorateL s.data)

/-- A complete valid Event document used as a concrete success input. -/
def docOk : String :=
  "<Event xmlns=\"http://schemas.microsoft.com/win/2004/08/events/event\"><System><TimeCreated SystemTime=\"2024-01-15T10:30:00Z\"/><Computer>HOST01</Computer></System><EventData><Data Name=\"SubjectUserName\">alice</Data><Data Name=\"NewProcessId\">0x1a2b</Data><Data Name=\"NewProcessName\">C:\\w.exe</Data><Data Name=\"CommandLine\">w.exe -a</Data></EventData></Event>"

/-- The parsed record of `docOk`. -/
def recOk : List (String × PyVal) :=
  [("eventdate", PyVal.str "2024-01-15 10:30:00"),
   ("hostname", PyVal.str "HOST01"),
   ("user", PyVal.str "alice"),
   ("processid", PyVal.str "0x1a2b"),
   ("image", PyVal.str "C:\\w.exe"),
   ("processcommandline", PyVal.str "w.exe -a"),
   ("hashes", PyVal.str "")]

/-- An Event element whose `Computer` element is present but empty, so
its text is `None`. -/
def evC1 : Elem :=
  Elem.node (evtTag "Event") [] Option.none (forestOf
    [Elem.node (evtTag "System") [] Option.none (forestOf
      [Elem.node (evtTag "TimeCreated") [("SystemTime", "2024-01-15T10:30:00Z")]
        Option.none Forest.nil Option.none,
       Elem.node (evtTag "Computer") [] Option.none Forest.nil Option.none]) Option.none,
     Elem.node (evtTag "EventData") [] Option.none Forest.nil Option.none]) Option.none

/-- An Event element with a duplicate `Data` name and one absent text,
exercising the name-to-value collection. -/
def evC2 : Elem :=
  Elem.node (evtTag "Event") [] Option.none (forestOf
    [Elem.node (evtTag "System") [] Option.none (forestOf
      [Elem.node (evtTag "TimeCreated") [("SystemTime", "2024-01-15T10:30:00Z")]
        Option.none Forest.nil Option.none,
       Elem.node (evtTag "Computer") [] (some "H") Forest.nil Option.none]) Option.none,
     Elem.node (evtTag "EventData") [] Option.none (forestOf
      [Elem.node (evtTag "Data") [("Name", "SubjectUserName")] (some "first") Forest.nil Option.none,
       Elem.node (evtTag "Data") [("Name", "SubjectUserName")] (some "second") Forest.nil Option.none,
       Elem.node (evtTag "Data") [("Name", "CommandLine")] Option.none Forest.nil Option.none])
      Option.none]) Option.none

/-- A minimal Event document with an unparseable timestamp. -/
def docBadTs : String :=
  "<Event xmlns=\"http://schemas.microsoft.com/win/2004/08/events/event\"><System><TimeCreated SystemTime=\"x\"/></System></Event>"

/-- The parse result of `docBadTs`. -/
def rootBadTs : Elem :=
  Elem.node (evtTag "Event") [] Option.none (forestOf
    [Elem.node (evtTag "System") [] Option.none (forestOf
      [Elem.node (evtTag "TimeCreated") [("SystemTime", "x")] Option.none Forest.nil Option.none])
      Option.none]) Option.none

/-- The `TimeCreated` child of `sysBadTs`. -/
def tcBadTs : Elem :=
  Elem.node (evtTag "TimeCreated") [("SystemTime", "x")] Option.none Forest.nil Option.none

/-- The `System` child of `rootBadTs`. -/
def sysBadTs : Elem :=
  Elem.node (evtTag "System") [] Option.none (forestOf
    [Elem.node (evtTag "TimeCreated") [("SystemTime", "x")] Option.none Forest.nil Option.none])
    Option.none

/-- A document wrapping an Event element in a foreign root, triggering
the multi-event recovery. -/
def wrapDoc : String := "<r><Event>x</Event></r>"

/-- The parse result of `wrapDoc`. -/
def wrapRootE : Elem :=
  Elem.node "r" [] Option.none (forestOf
    [Elem.node "Event" [] (some "x") Forest.nil Option.none]) Option.none

/-- The inner Event element of `wrapDoc`. -/
def innerEventE : Elem := Elem.node "Event" [] (some "x") Forest.nil Option.none

/-- A wrapper document whose root tag merely begins with `Event`: the
stripped content starts with `<Event`, so the recovery is skipped. -/
def wrapEventsDoc : String :=
  "<Events><Event xmlns=\"http://schemas.microsoft.com/win/2004/08/events/event\"><System><TimeCreated SystemTime=\"2024-01-15T10:30:00Z\"/><Computer>H</Computer></System><EventData/></Event></Events>"

/-- The record built in the success branch of `parse_event_xml_core`. -/
def mkRecord (computerEl : Elem) (dt : PyDatetime) (event_data : Elem) :
    List (String × PyVal) :=
  [("eventdate", PyVal.str (strftimeYmdHMS dt)),
   ("hostname", hostnameVal (Elem.text computerEl)),
   ("user", PyVal.str (dictGet (mkDataDict event_data) (some "SubjectUserName") "")),
   ("processid", PyVal.str (dictGet (mkDataDict event_data) (some "NewProcessId") "")),
   ("image", PyVal.str (dictGet (mkDataDict event_data) (some "NewProcessName") "")),
   ("processcommandline", PyVal.str (dictGet (mkDataDict event_data) (some "CommandLine") "")),
   ("hashes", PyVal.str "")]

/-- The record `parse_event_xml_core` returns for `evC1`: its hostname
value is `None`, not a string. -/
def recC1 : List (String × PyVal) :=
  [("eventdate", PyVal.str "2024-01-15 10:30:00"),
   ("hostname", PyVal.none),
   ("user", PyVal.str ""),
   ("processid", PyVal.str ""),
   ("image", PyVal.str ""),
   ("processcommandline", PyVal.str ""),
   ("hashes", PyVal.str "")]

/-- An Event element whose `System` has no `Computer` child at all. -/
def evC1nc : Elem :=
  Elem.node (evtTag "Event") [] Option.none (forestOf
    [Elem.node (evtTag "System") [] Option.none (forestOf
      [Elem.node (evtTag "TimeCreated") [("SystemTime", "2024-01-15T10:30:00Z")]
        Option.none Forest.nil Option.none]) Option.none,
     Elem.node (evtTag "EventData") [] Option.none Forest.nil Option.none]) Option.none

/-- The `System` child of `evC2`. -/
def sysC2 : Elem :=
  Elem.node (evtTag "System") [] Option.none (forestOf
    [Elem.node (evtTag "TimeCreated") [("SystemTime", "2024-01-15T10:30:00Z")]
      Option.none Forest.nil Option.none,
     Elem.node (evtTag "Computer") [] (some "H") Forest.nil Option.none]) Option.none

/-- The `TimeCreated` child of `sysC2`. -/
def tcC2 : Elem :=
  Elem.node (evtTag "TimeCreated") [("SystemTime", "2024-01-15T10:30:00Z")]
    Option.none Forest.nil Option.none

/-- The `EventData` child of `evC2`. -/
def edC2 : Elem :=
  Elem.node (evtTag "EventData") [] Option.none (forestOf
    [Elem.node (evtTag "Data") [("Name", "SubjectUserName")] (some "first") Forest.nil Option.none,
     Elem.node (evtTag "Data") [("Name", "SubjectUserName")] (some "second") Forest.nil Option.none,
     Elem.node (evtTag "Data") [("Name", "CommandLine")] Option.none Forest.nil Option.none])
    Option.none

/-- The record `parse_event_xml_core` returns for `evC2`. -/
def recC2 : List (String × PyVal) :=
  [("eventdate", PyVal.str "2024-01-15 10:30:00"),
   ("hostname", PyVal.str "H"),
   ("user", PyVal.str "second"),
   ("processid", PyVal.str ""),
   ("image", PyVal.str ""),
   ("processcommandline", PyVal.str ""),
   ("hashes", PyVal.str "")]

/-- A valid Event document with an indented continuation line inside the
`CommandLine` text: cleaning treats that line differently depending on
whether the document was decorated. -/
def sC8 : String :=
  "<Event xmlns=\"http://schemas.microsoft.com/win/2004/08/events/event\"><System><TimeCreated SystemTime=\"2024-01-15T10:30:00Z\"/><Computer>H</Computer></System><EventData><Data Name=\"CommandLine\">foo\n  bar</Data></EventData></Event>"

end XmlToCsv

/-! Helper lemmas about the embedded operations. -/
namespace XmlToCsv

theorem splitNl_ne_nil (cs : List Char) : splitNlL cs ≠ [] := by
  cases cs with
  | nil => simp [splitNlL]
  | cons c rest =>
    simp only [splitNlL]
    split
    · simp
    · split <;> simp

theorem joinNl_cons (l : List Char) (xs : List (List Char)) (h : xs ≠ []) :
    joinNlL (l :: xs) = l ++ '\n' :: joinNlL xs := by
  cases xs with
  | nil => exact absurd rfl h
  | cons y ys => rfl

theorem splitNl_nl_cons (rest : List Char) : splitNlL ('\n' :: rest) = [] :: splitNlL rest := by
  simp [splitNlL]

theorem splitNl_cons_ne (c : Char) (rest : List Char) (h : c ≠ '\n') :
    splitNlL (c :: rest) =
      (match splitNlL rest with
       | l :: ls => (c :: l) :: ls
       | [] => [[c]]) := by
  simp [splitNlL, h]

theorem cleanLoop_eq (xs : List (List Char)) : ∀ acc, cleanLoop acc xs = acc.reverse ++ xs.map cleanLineL := by
  induction xs with
  | nil => intro acc; simp [cleanLoop]
  | cons l ls ih => intro acc; simp [cleanLoop, ih]

theorem joinNl_splitNl (cs : List Char) : joinNlL (splitNlL cs) = cs := by
  induction cs with
  | nil => rfl
  | cons c rest ih =>
    by_cases h : c = '\n'
    · subst h
      rw [splitNl_nl_cons, joinNl_cons _ _ (splitNl_ne_nil rest), ih]
      rfl
    · rw [splitNl_cons_ne c rest h]
      cases hsp : splitNlL rest with
      | nil => exact absurd hsp (splitNl_ne_nil rest)
      | cons y ys =>
        rw [hsp] at ih
        cases ys with
        | nil => simpa [joinNlL] using ih
        | cons z zs =>
          rw [joinNl_cons (c :: y) (z :: zs) (by simp)]
          have ih2 : y ++ '\n' :: joinNlL (z :: zs) = rest := by
            rw [← joinNl_cons y (z :: zs) (by simp)]; exact ih
          simp [← ih2]

theorem splitNl_no_newline (cs : List Char) : ∀ l ∈ splitNlL cs, '\n' ∉ l := by
  induction cs with
  | nil => simp [splitNlL]
  | cons c rest ih =>
    by_cases h : c = '\n'
    · subst h
      rw [splitNl_nl_cons]
      intro l hl
      rcases List.mem_cons.mp hl with h1 | h1
      · subst h1; simp
      · exact ih l h1
    · rw [splitNl_cons_ne c rest h]
      cases hsp : splitNlL rest with
      | nil => exact absurd hsp (splitNl_ne_nil rest)
      | cons y ys =>
        intro l hl
        rcases List.mem_cons.mp hl with h1 | h1
        · subst h1
          intro hmem
          rcases List.mem_cons.mp hmem with h2 | h2
          · exact h h2.symm
          · exact ih y (hsp ▸ List.mem_cons_self y ys) h2
        · exact ih l (hsp ▸ List.mem_cons_of_mem y h1)

theorem splitNl_append_nl (l t : List Char) (h : '\n' ∉ l) :
    splitNlL (l ++ '\n' :: t) = l :: splitNlL t := by
  induction l with
  | nil => simpa using splitNl_nl_cons t
  | cons c cl ih =>
    have hc : c ≠ '\n' := fun hh => h (hh ▸ List.mem_cons_self c cl)
    have hcl : '\n' ∉ cl := fun hh => h (List.mem_cons_of_mem c hh)
    rw [List.cons_append, splitNl_cons_ne c _ hc, ih hcl]

theorem splitNl_of_no_nl (l : List Char) (h : '\n' ∉ l) : splitNlL l = [l] := by
  induction l with
  | nil => rfl
  | cons c cl ih =>
    have hc : c ≠ '\n' := fun hh => h (hh ▸ List.mem_cons_self c cl)
    have hcl : '\n' ∉ cl := fun hh => h (List.mem_cons_of_mem c hh)
    rw [splitNl_cons_ne c cl hc, ih hcl]

theorem splitNl_joinNl (ls : List (List Char)) (h : ∀ l ∈ ls, '\n' ∉ l) (h2 : ls ≠ []) :
    splitNlL (joinNlL ls) = ls := by
  induction ls with
  | nil => exact absurd rfl h2
  | cons l rest ih =>
    cases rest with
    | nil => exact splitNl_of_no_nl l (h l (List.mem_cons_self l []))
    | cons y ys =>
      rw [joinNl_cons _ _ (by simp)]
      rw [splitNl_append_nl _ _ (h l (List.mem_cons_self l (y :: ys)))]
      rw [ih (fun a ha => h a (List.mem_cons_of_mem l ha)) (by simp)]

end XmlToCsv
namespace XmlToCsv

theorem dictGet_dictSet (d : List (Option String × String)) (k k2 : Option String) (v dflt : String) :
    dictGet (dictSet d k v) k2 dflt = if k = k2 then v else dictGet d k2 dflt := by
  induction d with
  | nil => rfl
  | cons a rest ih =>
    obtain ⟨ak, av⟩ := a
    by_cases hak : ak = k
    · subst hak
      rw [show dictSet ((ak, av) :: rest) ak v = (ak, v) :: rest from by simp [dictSet]]
      by_cases h2 : ak = k2
      · simp [dictGet, h2]
      · simp [dictGet, h2]
    · rw [show dictSet ((ak, av) :: rest) k v = (ak, av) :: dictSet rest k v from by
        simp [dictSet, hak]]
      by_cases h2 : ak = k2
      · subst h2
        rw [show dictGet ((ak, av) :: dictSet rest k v) ak dflt = av from by simp [dictGet]]
        rw [if_neg (fun hh : k = ak => hak hh.symm)]
        simp [dictGet]
      · rw [show dictGet ((ak, av) :: dictSet rest k v) k2 dflt =
              dictGet (dictSet rest k v) k2 dflt from by simp [dictGet, h2]]
        rw [ih]
        by_cases h3 : k = k2
        · simp [h3]
        · simp [h3, dictGet, h2]

theorem lastNamed_cons (d : Elem) (rest : List Elem) (nm : String) :
    lastNamed (d :: rest) nm =
      (match lastNamed rest nm with
       | some v => some v
       | Option.none => if getAttr d "Name" = some nm then some (dataValue d) else Option.none) := rfl

theorem dictGet_fold (datas : List Elem) (nm : String) :
    ∀ d, dictGet (datas.foldl (fun acc e => dictSet acc (getAttr e "Name") (dataValue e)) d) (some nm) "" =
      (match lastNamed datas nm with
       | some v => v
       | Option.none => dictGet d (some nm) "") := by
  induction datas with
  | nil => intro d; rfl
  | cons e rest ih =>
    intro d
    rw [List.foldl_cons, ih (dictSet d (getAttr e "Name") (dataValue e)), lastNamed_cons]
    cases hl : lastNamed rest nm with
    | some v => rfl
    | none =>
      simp only []
      rw [dictGet_dictSet]
      by_cases h : getAttr e "Name" = some nm
      · simp [h]
      · simp [h]

theorem mem_dropWhile_of_not (p : Char → Bool) (cs : List Char) (c : Char)
    (hmem : c ∈ cs) (hp : p c = false) : c ∈ cs.dropWhile p := by
  induction cs with
  | nil => simp at hmem
  | cons a rest ih =>
    rcases List.mem_cons.mp hmem with h1 | h1
    · subst h1
      rw [List.dropWhile_cons, hp]
      simp
    · rw [List.dropWhile_cons]
      by_cases ha : p a
      · simp only [ha, if_true]
        exact ih h1
      · simp only [ha, if_false]
        exact List.mem_cons_of_mem a h1

theorem pyStripL_ne_nil (cs : List Char) (c : Char) (hmem : c ∈ cs) (hp : isPyWs c = false) :
    pyStripL cs ≠ [] := by
  intro hnil
  unfold pyStripL at hnil
  have h1 : c ∈ cs.dropWhile isPyWs := mem_dropWhile_of_not _ _ _ hmem hp
  have h2 : c ∈ (cs.dropWhile isPyWs).reverse := List.mem_reverse.mpr h1
  have h3 : c ∈ ((cs.dropWhile isPyWs).reverse.dropWhile isPyWs) :=
    mem_dropWhile_of_not _ _ _ h2 hp
  rw [List.reverse_eq_nil_iff] at hnil
  rw [hnil] at h3
  simp at h3

theorem cleanLineL_deco (l : List Char) : cleanLineL ('-' :: ' ' :: l) = l := by
  have h1 : pyLstripL ('-' :: ' ' :: l) = '-' :: ' ' :: l := by
    simp [pyLstripL, List.dropWhile_cons, isPyWs]
  simp only [cleanLineL, h1]
  have h2 : startsWithL "- ".data ('-' :: ' ' :: l) = true := by
    show List.isPrefixOf ['-', ' '] ('-' :: ' ' :: l) = true
    simp [List.isPrefixOf]
  rw [h2]
  simp

theorem cleanL_decorateL (cs : List Char) : cleanL (decorateL cs) = cs := by
  unfold cleanL decorateL
  rw [splitNl_joinNl]
  · rw [cleanLoop_eq, List.map_map]
    have hid : (cleanLineL ∘ fun l => '-' :: ' ' :: l) = id := by
      funext l
      exact cleanLineL_deco l
    rw [hid, List.map_id, List.reverse_nil, List.nil_append, joinNl_splitNl]
  · intro l hl
    rcases List.mem_map.mp hl with ⟨a, ha, rfl⟩
    intro hmem
    rcases List.mem_cons.mp hmem with h1 | h1
    · exact absurd h1.symm (by decide)
    · rcases List.mem_cons.mp h1 with h2 | h2
      · exact absurd h2.symm (by decide)
      · exact splitNl_no_newline cs a ha h2
  · simp [splitNl_ne_nil]

end XmlToCsv

namespace XmlToCsv

/-- Success characterization of the extraction: `parse_event_xml_core`
returns a record exactly when every structural lookup succeeds and the
timestamp parses, and the record is the one of src lines 40-48. -/
theorem core_ok_iff (root : Elem) (r : List (String × PyVal)) :
    parse_event_xml_core root = Except.ok r ↔
    ∃ system timeCreatedEl computerEl tc dt event_data,
      findChild root (evtTag "System") = some system ∧
      findChild system (evtTag "TimeCreated") = some timeCreatedEl ∧
      findChild system (evtTag "Computer") = some computerEl ∧
      getAttr timeCreatedEl "SystemTime" = some tc ∧
      fromisoformat (replaceZL tc.data) = some dt ∧
      findChild root (evtTag "EventData") = some event_data ∧
      r = mkRecord computerEl dt event_data := by
  constructor
  · intro h
    unfold parse_event_xml_core at h
    split at h
    next system hsys =>
      split at h
      next timeCreatedEl htc =>
        split at h
        next computerEl hcomp =>
          split at h
          next tc hattr =>
            split at h
            next dt hiso =>
              split at h
              next event_data hed =>
                refine ⟨system, timeCreatedEl, computerEl, tc, dt, event_data,
                  hsys, htc, hcomp, hattr, hiso, hed, ?_⟩
                simp only [Except.ok.injEq] at h
                exact h.symm
              next hed => simp at h
            next hiso => simp at h
          next hattr => simp at h
        next hcomp => simp at h
      next htc => simp at h
    next hsys => simp at h
  · rintro ⟨system, timeCreatedEl, computerEl, tc, dt, event_data,
      hsys, htc, hcomp, hattr, hiso, hed, hr⟩
    unfold parse_event_xml_core
    simp only [hsys, htc, hcomp, hattr, hiso, hed]
    rw [hr]
    rfl

/-- The dictionary lookup used for the four mapped fields equals the
value of the last `Data` child with the given name, or empty. -/
theorem dictGet_mkDataDict (ed : Elem) (nm : String) :
    dictGet (mkDataDict ed) (some nm) "" =
      (lastNamed (findChildren ed (evtTag "Data")) nm).getD "" := by
  unfold mkDataDict
  rw [dictGet_fold]
  cases lastNamed (findChildren ed (evtTag "Data")) nm <;> rfl

end XmlToCsv
namespace XmlToCsv

set_option maxRecDepth 1000000

/-- Claim C1 (amended): every record returned by the extraction has
exactly the seven fields eventdate, hostname, user, processid, image,
processcommandline, hashes in this fixed order; the eventdate, user,
processid, image, processcommandline and hashes fields are always
strings (absent source fields giving the empty string); but the
hostname field mirrors the text of the `Computer` element and is the
Python `None` value, not the empty string, when that element carries no
text, and when `Computer` is absent the parse raises instead of
returning a record. -/
theorem c1_record_shape (root : Elem) (r : List (String × PyVal))
    (h : parse_event_xml_core root = Except.ok r) :
    r.map Prod.fst = fieldnames ∧
    recLookup r "hashes" = some (PyVal.str "") ∧
    (∀ k, k ∈ ["eventdate", "user", "processid", "image", "processcommandline", "hashes"] →
      ∃ v, recLookup r k = some (PyVal.str v)) ∧
    (∃ system computerEl,
      findChild root (evtTag "System") = some system ∧
      findChild system (evtTag "Computer") = some computerEl ∧
      recLookup r "hostname" = some (hostnameVal (Elem.text computerEl))) := by
  obtain ⟨system, timeCreatedEl, computerEl, tc, dt, event_data,
    hsys, htc, hcomp, hattr, hiso, hed, hr⟩ := (core_ok_iff root r).mp h
  subst hr
  refine ⟨rfl, rfl, ?_, system, computerEl, hsys, hcomp, rfl⟩
  intro k hk
  fin_cases hk
  · exact ⟨_, rfl⟩
  · exact ⟨_, rfl⟩
  · exact ⟨_, rfl⟩
  · exact ⟨_, rfl⟩
  · exact ⟨_, rfl⟩
  · exact ⟨_, rfl⟩

/-- Claim C1 witness: the theorem applied to the concrete element
`evC1`. -/
theorem c1_record_shape_witness : recC1.map Prod.fst = fieldnames :=
  (c1_record_shape evC1 recC1 rfl).1

/-- Claim C1 counterexample: on an Event whose `Computer` element is
present but empty, the returned record has `None` as hostname, not the
empty string; and when `Computer` is absent the parse fails with an
`AttributeError` instead of returning a record with empty hostname. -/
theorem c1_counterexample :
    parse_event_xml_core evC1 = Except.ok recC1 ∧
    recLookup recC1 "hostname" = some PyVal.none ∧
    recLookup recC1 "hostname" ≠ some (PyVal.str "") ∧
    parse_event_xml_core evC1nc =
      Except.error (PyErr.attributeError (noneAttrMsg "text")) := by
  refine ⟨rfl, rfl, ?_, rfl⟩
  decide

/-- Claim C2: for every successfully parsed Event element, the four
mapped fields carry the value of the last `Data` child of `EventData`
bearing the matching `Name` (absent text read as the empty string,
absent name giving the empty string), and hashes is always empty. -/
theorem c2_data_mapping (root : Elem) (r : List (String × PyVal))
    (h : parse_event_xml_core root = Except.ok r) :
    ∃ event_data, findChild root (evtTag "EventData") = some event_data ∧
      recLookup r "user" = some (PyVal.str
        ((lastNamed (findChildren event_data (evtTag "Data")) "SubjectUserName").getD "")) ∧
      recLookup r "processid" = some (PyVal.str
        ((lastNamed (findChildren event_data (evtTag "Data")) "NewProcessId").getD "")) ∧
      recLookup r "image" = some (PyVal.str
        ((lastNamed (findChildren event_data (evtTag "Data")) "NewProcessName").getD "")) ∧
      recLookup r "processcommandline" = some (PyVal.str
        ((lastNamed (findChildren event_data (evtTag "Data")) "CommandLine").getD "")) ∧
      recLookup r "hashes" = some (PyVal.str "") := by
  obtain ⟨system, timeCreatedEl, computerEl, tc, dt, event_data,
    hsys, htc, hcomp, hattr, hiso, hed, hr⟩ := (core_ok_iff root r).mp h
  subst hr
  refine ⟨event_data, hed, ?_, ?_, ?_, ?_, rfl⟩
  · have h1 : recLookup (mkRecord computerEl dt event_data) "user" =
        some (PyVal.str (dictGet (mkDataDict event_data) (some "SubjectUserName") "")) := rfl
    rw [h1, dictGet_mkDataDict]
  · have h1 : recLookup (mkRecord computerEl dt event_data) "processid" =
        some (PyVal.str (dictGet (mkDataDict event_data) (some "NewProcessId") "")) := rfl
    rw [h1, dictGet_mkDataDict]
  · have h1 : recLookup (mkRecord computerEl dt event_data) "image" =
        some (PyVal.str (dictGet (mkDataDict event_data) (some "NewProcessName") "")) := rfl
    rw [h1, dictGet_mkDataDict]
  · have h1 : recLookup (mkRecord computerEl dt event_data) "processcommandline" =
        some (PyVal.str (dictGet (mkDataDict event_data) (some "CommandLine") "")) := rfl
    rw [h1, dictGet_mkDataDict]

/-- Claim C2 witness: on `evC2`, whose `EventData` has two `Data`
children named SubjectUserName, the user field carries the value of the
last one. -/
theorem c2_data_mapping_witness : recLookup recC2 "user" = some (PyVal.str "second") := by
  have h0 : findChild evC2 (evtTag "EventData") = some edC2 := rfl
  obtain ⟨ed, hed, hu, -, -, -, -⟩ := c2_data_mapping evC2 recC2 rfl
  rw [h0] at hed
  injection hed with hed
  subst hed
  rw [hu]
  rfl

/-- Claim C3: whenever the extraction succeeds and the `SystemTime`
attribute (after replacing Z with the utc offset, src line 28) parses as
an ISO timestamp, the eventdate field is that timestamp reformatted as
zero-padded year-month-day space hour:minute:second. -/
theorem c3_eventdate_format (root : Elem) (r : List (String × PyVal))
    (system timeCreatedEl : Elem) (tc : String) (dt : PyDatetime)
    (hsys : findChild root (evtTag "System") = some system)
    (htc : findChild system (evtTag "TimeCreated") = some timeCreatedEl)
    (hattr : getAttr timeCreatedEl "SystemTime" = some tc)
    (hiso : fromisoformat (replaceZL tc.data) = some dt)
    (h : parse_event_xml_core root = Except.ok r) :
    recLookup r "eventdate" =
      some (PyVal.str (pad4 dt.year ++ "-" ++ pad2 dt.month ++ "-" ++ pad2 dt.day ++ " " ++
        pad2 dt.hour ++ ":" ++ pad2 dt.minute ++ ":" ++ pad2 dt.second)) := by
  obtain ⟨system2, timeCreatedEl2, computerEl, tc2, dt2, event_data,
    hsys2, htc2, hcomp, hattr2, hiso2, hed, hr⟩ := (core_ok_iff root r).mp h
  rw [hsys] at hsys2
  injection hsys2 with e1
  subst e1
  rw [htc] at htc2
  injection htc2 with e2
  subst e2
  rw [hattr] at hattr2
  injection hattr2 with e3
  subst e3
  rw [hiso] at hiso2
  injection hiso2 with e4
  subst e4
  subst hr
  rfl

/-- Claim C3 witness: the concrete timestamp of the specification,
2024-01-15T10:30:00Z, yields eventdate 2024-01-15 10:30:00 on `evC2`. -/
theorem c3_eventdate_format_witness :
    recLookup recC2 "eventdate" = some (PyVal.str "2024-01-15 10:30:00") := by
  have h := c3_eventdate_format evC2 recC2 sysC2 tcC2 "2024-01-15T10:30:00Z"
    ⟨2024, 1, 15, 10, 30, 0, 0, some 0⟩ rfl rfl rfl rfl rfl
  exact h

end XmlToCsv
namespace XmlToCsv

set_option maxRecDepth 1000000

/-- Claim C7: the cleanup transforms the input line by line, in order:
each line is split at newlines, has its leading whitespace stripped and
then a leading dash-space pair removed if present, uniformly for every
line, and the lines are rejoined with newlines. -/
theorem c7_line_cleanup :
    (∀ s : String, clean s = String.mk (joinNlL ((splitNlL s.data).map cleanLineL))) ∧
    (∀ l : List Char, cleanLineL l =
      (if startsWithL "- ".data (pyLstripL l) then (pyLstripL l).drop 2 else pyLstripL l)) := by
  constructor
  · intro s
    unfold clean cleanL
    rw [cleanLoop_eq]
    simp
  · intro l
    rfl

/-- Claim C10: the recovery step is skipped for every content whose
stripped form starts with the literal prefix of an Event open tag; in
particular a wrapper root named Events is handed to the parser as a
single Event document unextracted, which then fails on the missing
namespaced System child, while a neutral wrapper root would have had
its inner Event extracted. -/
theorem c10_events_wrapper :
    (∀ s : String, startsWithL "<Event".data (pyStripL s.data) = true → recoverStep s = s) ∧
    startsWithL "<Event".data (pyStripL wrapEventsDoc.data) = true ∧
    xml_to_csv "f" (some wrapEventsDoc) =
      ⟨1, Option.none, some ("Error: " ++ noneAttrMsg "find")⟩ := by
  refine ⟨?_, by decide, by decide⟩
  intro s h
  unfold recoverStep
  rw [h]
  simp

/-- Claim C10 witness: the theorem applied to the concrete Events
wrapper document. -/
theorem c10_events_wrapper_witness : recoverStep wrapEventsDoc = wrapEventsDoc :=
  c10_events_wrapper.1 wrapEventsDoc (by decide)

/-- Claim C6: when the stripped content does not start with an Event
open tag, the recovery step parses the content; on parse failure the
content is kept unchanged (the step is a total function and never
raises); on success, namespaced Event descendants are searched first,
then non-namespaced ones, and the content is replaced by the
serialisation of the first element found, or kept when none is found. -/
theorem c6_recovery_fallback (s : String)
    (hguard : startsWithL "<Event".data (pyStripL s.data) = false) :
    (∀ m, fromstring s = Except.error m → recoverStep s = s) ∧
    (∀ root, fromstring s = Except.ok root →
      ((descendants root).filter (fun e => Elem.tag e = evtTag "Event") = [] →
        (descendants root).filter (fun e => Elem.tag e = "Event") = [] →
        recoverStep s = s) ∧
      (∀ e rest, (descendants root).filter (fun e2 => Elem.tag e2 = evtTag "Event") = e :: rest →
        recoverStep s = tostring e) ∧
      (∀ e rest, (descendants root).filter (fun e2 => Elem.tag e2 = evtTag "Event") = [] →
        (descendants root).filter (fun e2 => Elem.tag e2 = "Event") = e :: rest →
        recoverStep s = tostring e)) := by
  constructor
  · intro m hm
    unfold recoverStep
    rw [hguard, hm]
    simp
  · intro root hroot
    refine ⟨?_, ?_, ?_⟩
    · intro h1 h2
      unfold recoverStep
      rw [hguard, hroot]
      simp only [Bool.false_eq_true, if_false]
      rw [h1, h2]
      simp
    · intro e rest h1
      unfold recoverStep
      rw [hguard, hroot]
      simp only [Bool.false_eq_true, if_false]
      rw [h1]
      simp
    · intro e rest h1 h2
      unfold recoverStep
      rw [hguard, hroot]
      simp only [Bool.false_eq_true, if_false]
      rw [h1, h2]
      simp

/-- Claim C6 witness: the theorem applied to the concrete wrapper
document, whose inner Event is found by the non-namespaced fallback and
serialized. -/
theorem c6_recovery_fallback_witness : recoverStep wrapDoc = "<Event>x</Event>" := by
  have h := ((c6_recovery_fallback wrapDoc (by decide)).2 wrapRootE rfl).2.2
    innerEventE [] rfl rfl
  exact h

end XmlToCsv
namespace XmlToCsv

set_option maxRecDepth 1000000

/-- On non-empty input content, the invocation outcome is determined by
the parse of the recovered cleaned content. -/
theorem run_eq (name content : String) (hne : pyStripL content.data ≠ []) :
    xml_to_csv name (some content) =
      (match parse_event_xml (recoverStep (clean content)) with
       | Except.error (PyErr.parseError m) =>
         ⟨1, Option.none, some ("Error: Failed to parse XML - " ++ m)⟩
       | Except.error e => ⟨1, Option.none, some ("Error: " ++ PyErr.msg e)⟩
       | Except.ok csv_data =>
         ⟨0, some (csvRow fieldnames ++ csvRow (csv_data.map (fun kv => pyValStr kv.2))),
          Option.none⟩) := by
  simp only [xml_to_csv]
  rw [if_neg hne]

/-- Claim C4: a successful invocation writes exactly the header row
followed by one data row serialized from the parsed record, and exits
with status zero. -/
theorem c4_success_output (name content : String) (r : List (String × PyVal))
    (hne : pyStripL content.data ≠ [])
    (hp : parse_event_xml (recoverStep (clean content)) = Except.ok r) :
    xml_to_csv name (some content) =
      ⟨0, some (("eventdate,hostname,user,processid,image,processcommandline,hashes" ++ "\x0d\n")
        ++ csvRow (r.map (fun kv => pyValStr kv.2))), Option.none⟩ := by
  rw [run_eq name content hne, hp]
  rfl

/-- Claim C4 witness: the theorem applied to the complete valid document
`docOk`. -/
theorem c4_success_output_witness :
    xml_to_csv "f" (some docOk) =
      ⟨0, some ("eventdate,hostname,user,processid,image,processcommandline,hashes\x0d\n2024-01-15 10:30:00,HOST01,alice,0x1a2b,C:\\w.exe,w.exe -a,\x0d\n"),
       Option.none⟩ := by
  have h := c4_success_output "f" docOk recOk (by decide) rfl
  exact h.trans (by decide)

end XmlToCsv
namespace XmlToCsv

set_option maxRecDepth 1000000

/-- Claim C8 (amended): decorating every line with a dash-space pair is
undone exactly by the cleanup, so for every input on which the cleanup
is the identity (no line carries leading whitespace or a dash-space
prefix) and which is not whitespace-only, the decorated invocation gives
the identical result; for documents with indented or dash-prefixed
continuation lines inside element text the two invocations can differ,
because cleaning also rewrites those lines in the undecorated run. -/
theorem c8_decorated_equivalence (name s : String)
    (hclean : clean s = s) (hne : pyStripL s.data ≠ []) :
    xml_to_csv name (some (decorate s)) = xml_to_csv name (some s) := by
  have hcleandec : clean (decorate s) = s := by
    show String.mk (cleanL (decorateL s.data)) = s
    rw [cleanL_decorateL]
  have hdecne : pyStripL (decorate s).data ≠ [] := by
    have hmem : '-' ∈ decorateL s.data := by
      unfold decorateL
      cases hsp : splitNlL s.data with
      | nil => exact absurd hsp (splitNl_ne_nil s.data)
      | cons l ls =>
        cases ls with
        | nil => exact List.mem_cons_self '-' (' ' :: l)
        | cons y ys =>
          rw [List.map_cons, joinNl_cons _ _ (by simp)]
          exact List.mem_append_left _ (List.mem_cons_self '-' (' ' :: l))
    exact pyStripL_ne_nil _ '-' hmem (by decide)
  rw [run_eq name (decorate s) hdecne, run_eq name s hne, hcleandec, hclean]

/-- Claim C8 witness: the theorem applied to the single-line document
`docOk`, whose cleanup is the identity. -/
theorem c8_decorated_equivalence_witness :
    xml_to_csv "f" (some (decorate docOk)) = xml_to_csv "f" (some docOk) :=
  c8_decorated_equivalence "f" docOk (by decide) (by decide)

/-- Claim C8 counterexample: on the valid Event document `sC8`, whose
CommandLine text contains an indented continuation line, the decorated
and undecorated invocations both succeed but produce different records
(the undecorated run lstrips the continuation line, the decorated run
keeps its indentation), refuting the claim for arbitrary valid Event
documents. -/
theorem c8_counterexample :
    (xml_to_csv "f" (some (decorate sC8))).exitCode = 0 ∧
    (xml_to_csv "f" (some sC8)).exitCode = 0 ∧
    xml_to_csv "f" (some (decorate sC8)) ≠ xml_to_csv "f" (some sC8) := by
  refine ⟨by decide, by decide, by decide⟩

end XmlToCsv
namespace XmlToCsv

set_option maxRecDepth 1000000

/-- Claim C5: every failing invocation exits with status 1, leaves the
output file unwritten, and prints an error line; the four failure
classes (missing file, empty content, parse failure, other exception)
produce pairwise distinct messages, shown on concrete inputs. -/
theorem c5_failure_semantics :
    (∀ (name : String) (fc : Option String), (xml_to_csv name fc).exitCode ≠ 0 →
      (xml_to_csv name fc).written = Option.none ∧
      (xml_to_csv name fc).exitCode = 1 ∧
      (xml_to_csv name fc).errMsg ≠ Option.none) ∧
    xml_to_csv "f" Option.none =
      ⟨1, Option.none, some ("Error: File " ++ sqs ++ "f" ++ sqs ++ " not found.")⟩ ∧
    xml_to_csv "f" (some "") = ⟨1, Option.none, some "Error: XML file is empty"⟩ ∧
    xml_to_csv "f" (some "<bad") =
      ⟨1, Option.none,
       some "Error: Failed to parse XML - not well-formed (invalid token): line 1, column 0"⟩ ∧
    xml_to_csv "f" (some wrapEventsDoc) =
      ⟨1, Option.none, some ("Error: " ++ noneAttrMsg "find")⟩ ∧
    List.Pairwise (fun a b => a ≠ b)
      [("Error: File " ++ sqs ++ "f" ++ sqs ++ " not found."),
       "Error: XML file is empty",
       "Error: Failed to parse XML - not well-formed (invalid token): line 1, column 0",
       ("Error: " ++ noneAttrMsg "find")] := by
  refine ⟨?_, by decide, by decide, by decide, by decide, by decide⟩
  intro name fc h
  match fc with
  | Option.none => exact ⟨rfl, rfl, by simp [xml_to_csv]⟩
  | some content =>
    by_cases hstrip : pyStripL content.data = []
    · have hx : xml_to_csv name (some content) =
          ⟨1, Option.none, some "Error: XML file is empty"⟩ := by
        simp only [xml_to_csv]
        rw [if_pos hstrip]
      rw [hx]
      exact ⟨rfl, rfl, by simp⟩
    · rw [run_eq name content hstrip] at h ⊢
      cases hp : parse_event_xml (recoverStep (clean content)) with
      | error e =>
        cases e with
        | parseError m => exact ⟨rfl, rfl, by simp⟩
        | attributeError m => exact ⟨rfl, rfl, by simp⟩
        | valueError m => exact ⟨rfl, rfl, by simp⟩
      | ok r =>
        rw [hp] at h
        simp at h

/-- Claim C5 witness: the universally quantified part applied to the
missing-file invocation. -/
theorem c5_failure_semantics_witness : (xml_to_csv "f" Option.none).written = Option.none :=
  (c5_failure_semantics.1 "f" Option.none (by decide)).1

/-- Claim C9: an Event document whose SystemTime attribute does not
parse as an ISO timestamp makes the whole invocation fail with exit
status 1 and no output file, rather than producing a record with an
empty eventdate. -/
theorem c9_bad_timestamp_fatal (name content : String) (root : Elem)
    (system timeCreatedEl : Elem) (tc : String)
    (hne : pyStripL content.data ≠ [])
    (hf : fromstring (recoverStep (clean content)) = Except.ok root)
    (hsys : findChild root (evtTag "System") = some system)
    (htc : findChild system (evtTag "TimeCreated") = some timeCreatedEl)
    (hattr : getAttr timeCreatedEl "SystemTime" = some tc)
    (hiso : fromisoformat (replaceZL tc.data) = Option.none) :
    (xml_to_csv name (some content)).exitCode = 1 ∧
    (xml_to_csv name (some content)).written = Option.none ∧
    (xml_to_csv name (some content)).errMsg ≠ Option.none := by
  have hcore : parse_event_xml_core root =
        Except.error (PyErr.attributeError (noneAttrMsg "text")) ∨
      parse_event_xml_core root = Except.error (PyErr.valueError
        ("Invalid isoformat string: " ++ sqs ++ String.mk (replaceZL tc.data) ++ sqs)) := by
    cases hcomp : findChild system (evtTag "Computer") with
    | none =>
      left
      unfold parse_event_xml_core
      simp only [hsys, htc, hcomp]
    | some computerEl =>
      right
      unfold parse_event_xml_core
      simp only [hsys, htc, hcomp, hattr, hiso]
  have hparse : ∀ e, parse_event_xml_core root = Except.error e →
      parse_event_xml (recoverStep (clean content)) = Except.error e := by
    intro e he
    unfold parse_event_xml
    rw [hf]
    exact he
  rw [run_eq name content hne]
  rcases hcore with hc | hc
  · rw [hparse _ hc]
    exact ⟨rfl, rfl, by simp⟩
  · rw [hparse _ hc]
    exact ⟨rfl, rfl, by simp⟩

/-- Claim C9 witness: the theorem applied to the concrete document with
SystemTime x. -/
theorem c9_bad_timestamp_fatal_witness :
    (xml_to_csv "f" (some docBadTs)).exitCode = 1 ∧
    (xml_to_csv "f" (some docBadTs)).written = Option.none ∧
    (xml_to_csv "f" (some docBadTs)).errMsg ≠ Option.none :=
  c9_bad_timestamp_fatal "f" docBadTs rootBadTs sysBadTs tcBadTs "x"
    (by decide) rfl rfl rfl rfl rfl

end XmlToCsv
